import Mathlib

/-!
Shallow embedding of the pperm concurrent policy-resolution engine
(Go sources: pkg/aws/client.go, the aws client file holding the
cache/metrics variant of GetRolePolicies/GetPolicyPermissions/Cache,
the retry variant of GetRolePolicies, and pkg/analyzer's
processPermissions), together with theorems settling claims C1-C10 of
the specification.

Machine integers are modelled as `Int`/`Nat`; `time.Time` values are
modelled as `Int` nanosecond counts (the Go zero `time.Time` is `0`);
Go maps are modelled as association lists in insertion order; fallible
remote calls are modelled as `Except String` oracles.
-/

/-- Embeds `strings.HasPrefix` on the underlying character lists:
`listHasPrefix s pre` is true iff `pre` is an initial segment of `s`. -/
def listHasPrefix : List Char → List Char → Bool
  | _, [] => true
  | [], _ :: _ => false
  | c :: cs, p :: ps => c == p && listHasPrefix cs ps

/-- Embeds Go `strings.HasPrefix(s, pre)`. -/
def strHasPrefix (s pre : String) : Bool :=
  listHasPrefix s.data pre.data

/-- Embeds Go `strings.HasSuffix(s, suf)`. -/
def strHasSuffix (s suf : String) : Bool :=
  listHasPrefix s.data.reverse suf.data.reverse

/-- Embeds Go `strings.Contains(s, "*")` (the only `strings.Contains`
pattern used by `formatPermissions`): true iff `s` holds a `*`. -/
def containsStar (s : String) : Bool :=
  s.data.contains '*'

/-- `types.PermissionDisplay` from pkg/types/types.go. -/
structure PermissionDisplay where
  Action : String
  Resource : String
  Effect : String
  IsBroad : Bool
  IsHighRisk : Bool
  HasCondition : Bool
deriving Repr, DecidableEq

/-- A JSON value as far as the policy parser inspects it: the
`interface{}`-typed `Action`/`Resource` fields are either a string, an
array, or something else (the cases of the `switch` in
`getActions`/`getResources`). -/
inductive JsonVal where
  | str (s : String)
  | arr (elems : List JsonVal)
  | other
deriving Repr

/-- `aws.Statement`: one statement of a parsed policy document.
The `Condition` map is modelled by its key list (the code only ever
asks for `len(stmt.Condition)`). -/
structure Statement where
  Effect : String
  Action : JsonVal
  Resource : JsonVal
  Condition : List String
deriving Repr

/-- `aws.PolicyDocument`. -/
structure PolicyDocument where
  Version : String
  Statement : List Statement
deriving Repr

/-- `types.StatementInfo` from pkg/types/types.go. -/
structure StatementInfo where
  Effect : String
  Actions : List String
  Resources : List String
deriving Repr, DecidableEq

/-- `types.Policy` from pkg/types/types.go. -/
structure Policy where
  Name : String
  Arn : String
  Permissions : List PermissionDisplay
deriving Repr, DecidableEq

/-- `getActions` from the aws package: a string yields a one-element
list; an array yields one string per element, non-string elements
becoming the zero value `""`; anything else yields nil. -/
def getActions : JsonVal → List String
  | .str v => [v]
  | .arr v => v.map (fun a => match a with | .str s => s | _ => "")
  | .other => []

/-- `getResources` from the aws package (same shape as `getActions`). -/
def getResources : JsonVal → List String
  | .str v => [v]
  | .arr v => v.map (fun r => match r with | .str s => s | _ => "")
  | .other => []

/-- The `highRiskServices` prefix list inside
`isHighRiskService` (pkg/aws/client.go). -/
def highRiskServices : List String :=
  ["iam:", "kms:", "secretsmanager:", "lambda:", "ec2:", "rds:", "dynamodb:"]

/-- `isHighRiskService` from pkg/aws/client.go: true iff the action
starts with one of the sensitive service prefixes, or ends with `:*`. -/
def isHighRiskService (action : String) : Bool :=
  highRiskServices.any (fun service => strHasPrefix action service)
    || strHasSuffix action ":*"

/-- `formatPermissions` from the aws client: one record per
action × resource pair of every statement (no filtering on Effect),
tagged broad when action or resource holds a wildcard and high-risk
per `isHighRiskService`. -/
def formatPermissions (statements : List Statement) : List PermissionDisplay :=
  statements.flatMap (fun stmt =>
    let actions := getActions stmt.Action
    let resources := getResources stmt.Resource
    let hasCondition := decide (stmt.Condition.length > 0)
    actions.flatMap (fun action =>
      resources.map (fun resource =>
        { Action := action
          Resource := resource
          Effect := stmt.Effect
          IsBroad := containsStar action || containsStar resource
          IsHighRisk := isHighRiskService action
          HasCondition := hasCondition })))

/-- The `highRiskPatterns` list inside `isHighRiskPermission`
(pkg/analyzer). -/
def highRiskPatterns : List String :=
  ["iam:*", "s3:*", "ec2:*", "rds:*", "dynamodb:*", "secretsmanager:*", "kms:*"]

/-- `isHighRiskPermission` from pkg/analyzer: true iff the resource is
exactly `*` and the action is exactly one of the patterns. -/
def isHighRiskPermission (action resource : String) : Bool :=
  if resource = "*" then highRiskPatterns.any (fun pattern => action == pattern)
  else false

/-- The comparison closure passed to `sort.Slice` in
`processPermissions`: high-risk first, then broad, then ascending
action string. -/
def permLess (a b : PermissionDisplay) : Bool :=
  if a.IsHighRisk != b.IsHighRisk then a.IsHighRisk
  else if a.IsBroad != b.IsBroad then a.IsBroad
  else decide (a.Action < b.Action)

/-- The non-strict order induced by `permLess`; `sort.Slice`
guarantees its output is sorted with respect to it. -/
def permLE (a b : PermissionDisplay) : Prop :=
  permLess b a = false

instance : DecidableRel permLE := fun a b => by
  unfold permLE; infer_instance

/-- The body of `processPermissions`' statement loop: a non-Allow
statement is skipped (`continue`); an Allow statement contributes one
record per action × resource (broad iff the action ends with `:*`,
high-risk per `isHighRiskPermission`, remaining fields Go zero
values). -/
def displayOfStatement (stmt : StatementInfo) : List PermissionDisplay :=
  if stmt.Effect ≠ "Allow" then []
  else stmt.Actions.flatMap (fun action =>
    stmt.Resources.map (fun resource =>
      { Action := action
        Resource := resource
        Effect := ""
        IsBroad := strHasSuffix action ":*"
        IsHighRisk := isHighRiskPermission action resource
        HasCondition := false }))

/-- `processPermissions` from pkg/analyzer: accumulate the per-Allow
statement records, then sort with `permLess` (`sort.Slice` guarantees
output sorted with respect to the comparison). -/
def processPermissions (statements : List StatementInfo) : List PermissionDisplay :=
  (statements.flatMap displayOfStatement).insertionSort permLE

example : formatPermissions
    [⟨"Allow", .str "s3:GetObject", .str "arn:aws:s3:::b/k", []⟩,
     ⟨"Deny", .str "s3:DeleteBucket", .str "*", []⟩] =
    [⟨"s3:GetObject", "arn:aws:s3:::b/k", "Allow", false, false, false⟩,
     ⟨"s3:DeleteBucket", "*", "Deny", true, false, false⟩] := by decide

example : processPermissions
    [⟨"Deny", ["s3:DeleteBucket"], ["*"]⟩] = [] := by decide

example : isHighRiskService "iam:GetUser" = true := by decide
example : isHighRiskService "s3:GetObject" = false := by decide
example : isHighRiskService "s3:*" = true := by decide

/-- `cacheEntry` from the aws client (cache variant). Timestamps are
`Int` nanoseconds; the Go zero `time.Time` is `0`, so
`t.IsZero()` is `t = 0`. -/
structure cacheEntry where
  permissions : List PermissionDisplay
  timestamp : Int
  versionId : String
  document : PolicyDocument
  lastAccess : Int
deriving Repr

/-- The Go zero value `cacheEntry{}`. -/
def zeroEntry : cacheEntry := ⟨[], 0, "", ⟨"", []⟩, 0⟩

/-- The `Cache` struct (the embedded mutex carries no data and is
omitted; `lastSave` is only read by the persistence helpers and is
likewise omitted). Counters are Go integers, modelled as `Int`. -/
structure Cache where
  items : List (String × cacheEntry)
  size : Int
  hits : Int
  misses : Int
  evicted : Int
deriving Repr

/-- The freshly constructed `policyCache` value. -/
def Cache.empty : Cache := ⟨[], 0, 0, 0, 0⟩

/-- `cacheExpiration = 1 * time.Minute`, in nanoseconds. -/
def cacheExpiration : Int := 60000000000

/-- `maxCacheSize = 1000`. -/
def maxCacheSize : Int := 1000

/-- Go map indexing `m[key]`: the stored entry, or the zero value when
the key is absent. -/
def mapIndex (items : List (String × cacheEntry)) (key : String) : cacheEntry :=
  (items.lookup key).getD zeroEntry

/-- Go map assignment `m[key] = e`: replaces in place when the key is
present, otherwise adds the pair. -/
def mapInsert (items : List (String × cacheEntry)) (key : String) (e : cacheEntry) :
    List (String × cacheEntry) :=
  if (items.lookup key).isSome then
    items.map (fun kv => if kv.1 = key then (key, e) else kv)
  else items ++ [(key, e)]

/-- Go `delete(m, key)`. -/
def mapDelete (items : List (String × cacheEntry)) (key : String) :
    List (String × cacheEntry) :=
  items.filter (fun kv => kv.1 != key)

/-- `Cache.Get` from the aws client (cache variant). `now` is the
clock observed during the call (used by `time.Since` and for the
refreshed `lastAccess`). Returns the entry, the found flag, and the
cache after the call's side effects: a miss bumps `misses`; an entry
with `now - timestamp > cacheExpiration` bumps `evicted`, is deleted,
and `size` is decremented; otherwise `lastAccess` is refreshed in
place and `hits` is bumped. The operation is total — absence and
expiry are signalled only through the returned flag. -/
def Cache.Get (c : Cache) (key : String) (now : Int) : cacheEntry × Bool × Cache :=
  match c.items.lookup key with
  | none => (zeroEntry, false, { c with misses := c.misses + 1 })
  | some entry =>
    if now - entry.timestamp > cacheExpiration then
      (zeroEntry, false,
        { c with
            evicted := c.evicted + 1
            items := mapDelete c.items key
            size := c.size - 1 })
    else
      let entry' := { entry with lastAccess := now }
      (entry', true,
        { c with items := mapInsert c.items key entry', hits := c.hits + 1 })

/-- The LRU scan inside `Cache.Set`: walk the map (modelled in
insertion order; Go map iteration order is unspecified) keeping the
key whose `lastAccess` is strictly below the running bound, starting
from `lru = now` and `lruKey = ""`. -/
def findLRUKey : List (String × cacheEntry) → Int → String → String
  | [], _, lruKey => lruKey
  | (k, v) :: rest, lru, lruKey =>
    if v.lastAccess < lru then findLRUKey rest v.lastAccess k
    else findLRUKey rest lru lruKey

/-- `Cache.Set` from the aws client (cache variant). When
`size >= maxCacheSize` and the entry currently indexed at `key` has a
zero timestamp, the LRU scan runs, its key is deleted, `size` is
decremented and `evicted` bumped. Then the new entry's `lastAccess` is
set to `now` and it is stored; `size` is incremented only when the
*just-stored* entry's timestamp is zero (the code re-reads
`c.items[key]` after the assignment). -/
def Cache.Set (c : Cache) (key : String) (entry : cacheEntry) (now : Int) : Cache :=
  let c1 :=
    if c.size ≥ maxCacheSize ∧ (mapIndex c.items key).timestamp = 0 then
      { c with
          items := mapDelete c.items (findLRUKey c.items now "")
          size := c.size - 1
          evicted := c.evicted + 1 }
    else c
  let entry' := { entry with lastAccess := now }
  let items' := mapInsert c1.items key entry'
  if (mapIndex items' key).timestamp = 0 then
    { c1 with items := items', size := c1.size + 1 }
  else
    { c1 with items := items' }

/-- The remote IAM API as observed during one `GetPolicyPermissions`
call. `liveVersion` is the policy's current `DefaultVersionId`;
`getPolicy` is the outcome of the initial `GetPolicy` metadata call
(which yields `liveVersion` on success); `getVersionDoc v` is the
outcome of `GetPolicyVersion` for version `v`, with the URL-unescape
and JSON-decode steps folded in (their failures become its error
case). `fallback` abstracts the net outcome — result and number of
remote calls — of the concurrent recovery block that runs only when
the metadata call failed and the cache missed; that block interleaves
goroutines over channels and is modelled as an uninterpreted outcome,
and no settled claim depends on it. -/
structure RemoteAPI where
  liveVersion : String
  getPolicy : Except String Unit
  getVersionDoc : String → Except String PolicyDocument
  fallback : Except String (List PermissionDisplay) × Nat

/-- `GetPolicyPermissions` from the aws client (cache variant).
The metadata call `GetPolicy` is issued first; only then is the cache
consulted. On a hit whose `versionId` equals the live version the
cached permissions are returned. Otherwise the version document is
fetched, formatted and written back to the cache keyed by `arn` with
the observed version (the stored entry's `lastAccess` field is the Go
zero before `Set` fills it). When the metadata call fails, a cache hit
is served as a fallback regardless of version. Returns the result,
the mutated cache, and the number of remote calls issued. Latency
metrics and the `recordCacheHit` counter are not modelled. -/
def GetPolicyPermissions (api : RemoteAPI) (c : Cache) (arn : String) (now : Int) :
    Except String (List PermissionDisplay) × Cache × Nat :=
  match api.getPolicy with
  | .ok _ =>
    let (entry, found, c1) := Cache.Get c arn now
    if found && (entry.versionId == api.liveVersion) then
      (.ok entry.permissions, c1, 1)
    else
      match api.getVersionDoc api.liveVersion with
      | .error e => (.error ("failed to get policy version: " ++ e), c1, 2)
      | .ok doc =>
        let perms := formatPermissions doc.Statement
        let c2 := Cache.Set c1 arn
          { permissions := perms
            timestamp := now
            versionId := api.liveVersion
            document := doc
            lastAccess := 0 } now
        (.ok perms, c2, 2)
  | .error _ =>
    let (entry, found, c1) := Cache.Get c arn now
    if found then (.ok entry.permissions, c1, 1)
    else
      let (res, n) := api.fallback
      (res, c1, 1 + n)

/-- One element of `result.AttachedPolicies`. -/
structure AttachedPolicy where
  PolicyName : String
  PolicyArn : String
deriving Repr, DecidableEq

/-- The successful case of one dispatched worker's outcome. -/
def okPolicy : Except String Policy → Option Policy
  | .ok p => some p
  | .error _ => none

/-- The failed case of one dispatched worker's outcome. -/
def errMsg : Except String Policy → Option String
  | .error e => some e
  | .ok _ => none

/-- The collection phase of `GetRolePolicies` (cache variant):
`cached` are the policies found during the cache pre-pass (appended
first), `outcomes` the dispatched workers' results in delivery order,
all assumed delivered before `resultCollectTimeout` fires and with no
cancellation. Mirrors the final
`if len(errs) > 0 && len(policies) == 0` check, which reports the
first collected error. -/
def collectPolicies (cached : List Policy) (outcomes : List (Except String Policy)) :
    Except String (List Policy) :=
  let policies := cached ++ outcomes.filterMap okPolicy
  let errs := outcomes.filterMap errMsg
  match errs with
  | [] => .ok policies
  | e :: _ =>
    if policies.length = 0 then .error ("failed to get any policies: " ++ e)
    else .ok policies

/-- `GetRolePolicies` (cache variant) at the granularity the claims
need: a failed list call is surfaced as an error; an empty attached
list returns the empty result; otherwise the collection phase runs
over the cache pre-pass results and the dispatched outcomes. -/
def GetRolePolicies (listResult : Except String (List AttachedPolicy))
    (cached : List Policy) (outcomes : List (Except String Policy)) :
    Except String (List Policy) :=
  match listResult with
  | .error e => .error ("failed to list policies: " ++ e)
  | .ok attached =>
    if attached.isEmpty then .ok []
    else collectPolicies cached outcomes

/-- Backoff constants of the retry loop in the retry variant of
`GetRolePolicies`: 100ms initial backoff, 2s cap, 3 attempts
(nanoseconds). -/
def retryBaseBackoff : Int := 100000000

/-- The 2s backoff cap of the retry loop. -/
def retryMaxBackoff : Int := 2000000000

/-- `maxRetries = 3` of the retry loop. -/
def maxRetries : Nat := 3

/-- The retry `for` loop of the retry variant of `GetRolePolicies`.
`remaining` counts iterations still to run (`maxRetries - retries`).
An iteration with `retries > 0` first doubles the backoff (when below
the cap) and sleeps it; then the attempt runs and its outcome
overwrites `res`. Go's `break` after `err == nil` sits inside the
`select` statement and exits only the `select`, never the loop, so
the loop always proceeds to its next iteration. The surrounding
context is assumed not cancelled. Returns the final outcome, the
number of list calls made, and the slept backoffs in order. -/
def listRetryLoop (oracle : Nat → Except String (List AttachedPolicy)) :
    Nat → Nat → Int → Except String (List AttachedPolicy) → Nat → List Int →
    Except String (List AttachedPolicy) × Nat × List Int
  | 0, _, _, res, calls, sleeps => (res, calls, sleeps)
  | remaining + 1, retries, backoff, _, calls, sleeps =>
    let backoff' :=
      if retries > 0 then
        (if backoff < retryMaxBackoff then backoff * 2 else backoff)
      else backoff
    let sleeps' := if retries > 0 then sleeps ++ [backoff'] else sleeps
    let r := oracle retries
    listRetryLoop oracle remaining (retries + 1) backoff' r (calls + 1) sleeps'

/-- The list-with-retry phase of the retry variant of
`GetRolePolicies`: run the loop from attempt 0; afterwards the caller
surfaces an error exactly when the final outcome is an error (`if err
!= nil`). The initial `res` stands for Go's uninitialised `result,
err` pair and is overwritten by the first iteration. -/
def listPoliciesWithRetry (oracle : Nat → Except String (List AttachedPolicy)) :
    Except String (List AttachedPolicy) × Nat × List Int :=
  listRetryLoop oracle maxRetries 0 retryBaseBackoff (.error "uninitialized") 0 []

example :
    listPoliciesWithRetry (fun i => if i = 0 then .ok [] else .error "boom") =
      (.error "boom", 3, [200000000, 400000000]) := rfl

example :
    (Cache.Get ⟨[("k", ⟨[], 0, "v1", ⟨"", []⟩, 0⟩)], 1, 0, 0, 0⟩ "k" 60000000000).2.1
      = true := by decide

example :
    (Cache.Get ⟨[("k", ⟨[], 0, "v1", ⟨"", []⟩, 0⟩)], 1, 0, 0, 0⟩ "k" 60000000001).2.1
      = false := by decide

section MapLemmas

lemma lookup_mapDelete (items : List (String × cacheEntry)) (key : String) :
    (mapDelete items key).lookup key = none := by
  induction items with
  | nil => rfl
  | cons kv rest ih =>
    by_cases h : kv.1 = key
    · simpa [mapDelete, List.filter_cons, h] using ih
    · have hb : (kv.1 != key) = true := by simp [bne, h]
      simpa [mapDelete, List.filter_cons, hb, List.lookup,
        beq_false_of_ne (Ne.symm h)] using ih

lemma lookup_append_singleton_ne (items : List (String × cacheEntry))
    (key k : String) (e : cacheEntry) (hne : k ≠ key)
    (h : items.lookup k = none) :
    (items ++ [(key, e)]).lookup k = none := by
  induction items with
  | nil => simp [List.lookup, beq_false_of_ne hne]
  | cons kv rest ih =>
    simp only [List.lookup, List.cons_append] at h ⊢
    cases hkk : (k == kv.1) with
    | true => simp [hkk] at h
    | false => exact ih (by simpa [hkk] using h)

lemma lookup_map_replace (items : List (String × cacheEntry))
    (key : String) (e : cacheEntry)
    (h : (items.lookup key).isSome) :
    (items.map (fun kv => if kv.1 = key then (key, e) else kv)).lookup key
      = some e := by
  induction items with
  | nil => simp [List.lookup] at h
  | cons kv rest ih =>
    by_cases hb : kv.1 = key
    · rw [List.map_cons, if_pos hb]
      simp [List.lookup]
    · rw [List.map_cons, if_neg hb]
      have hkb : (key == kv.1) = false := beq_false_of_ne (Ne.symm hb)
      simp only [List.lookup, hkb] at h
      simp only [List.lookup, hkb]
      exact ih h

lemma lookup_append_self (items : List (String × cacheEntry))
    (key : String) (e : cacheEntry)
    (h : items.lookup key = none) :
    ((items ++ [(key, e)]).lookup key) = some e := by
  induction items with
  | nil => simp [List.lookup]
  | cons kv rest ih =>
    cases hkk : (key == kv.1) with
    | true => simp [List.lookup, hkk] at h
    | false =>
      simp only [List.lookup, hkk] at h
      simpa [List.cons_append, List.lookup, hkk] using ih h

lemma lookup_mapInsert_self (items : List (String × cacheEntry))
    (key : String) (e : cacheEntry) :
    (mapInsert items key e).lookup key = some e := by
  unfold mapInsert
  cases hl : items.lookup key with
  | some v =>
    simp only [hl, Option.isSome_some, if_true]
    exact lookup_map_replace items key e (by simp [hl])
  | none =>
    simp only [hl, Option.isSome_none, Bool.false_eq_true, if_false]
    exact lookup_append_self items key e hl

end MapLemmas

section GetLemmas

lemma cacheGet_none (c : Cache) (key : String) (now : Int)
    (h : c.items.lookup key = none) :
    Cache.Get c key now =
      (zeroEntry, false, { c with misses := c.misses + 1 }) := by
  unfold Cache.Get
  rw [h]

lemma cacheGet_expired (c : Cache) (key : String) (now : Int) (e : cacheEntry)
    (h : c.items.lookup key = some e)
    (hexp : now - e.timestamp > cacheExpiration) :
    Cache.Get c key now =
      (zeroEntry, false,
        { c with
            evicted := c.evicted + 1
            items := mapDelete c.items key
            size := c.size - 1 }) := by
  unfold Cache.Get
  rw [h]
  exact if_pos hexp

lemma cacheGet_fresh (c : Cache) (key : String) (now : Int) (e : cacheEntry)
    (h : c.items.lookup key = some e)
    (hfresh : ¬ now - e.timestamp > cacheExpiration) :
    Cache.Get c key now =
      ({ e with lastAccess := now }, true,
        { c with
            items := mapInsert c.items key { e with lastAccess := now }
            hits := c.hits + 1 }) := by
  unfold Cache.Get
  rw [h]
  exact if_neg hfresh

end GetLemmas

/-- Concrete cache for the C6 counterexample: one entry created at
time 0 holding one permission. -/
def c6Entry : cacheEntry :=
  ⟨[⟨"s3:GetObject", "arn:aws:s3:::b/k", "Allow", false, false, false⟩],
    0, "v1", ⟨"", []⟩, 0⟩

/-- Cache holding `c6Entry` under key "policyA". -/
def c6Cache : Cache := ⟨[("policyA", c6Entry)], 1, 0, 0, 0⟩

/-- C6 counterexample: the claim says an entry whose age has *reached*
the TTL is treated as absent (serve iff `now - createdAt < TTL`), but
`Cache.Get` only discards when `time.Since(timestamp) > cacheExpiration`
is strict: at age exactly TTL the entry is still served, even though
its age is not strictly below the TTL. -/
theorem cacheGet_serves_at_exact_ttl :
    (Cache.Get c6Cache "policyA" cacheExpiration).2.1 = true ∧
    ¬ (cacheExpiration - c6Entry.timestamp < cacheExpiration) := by
  exact ⟨rfl, by decide⟩

/-- C6 (amended): `Cache.Get` at time `t` returns found = true iff an
entry for the key is present with `t - createdAt ≤ TTL` (non-strict);
an entry whose age strictly exceeds the TTL is treated as absent and
is removed from the cache on that access (lazy eviction). -/
theorem cacheGet_ttl_boundary (c : Cache) (key : String) (now : Int) :
    ((Cache.Get c key now).2.1 = true ↔
      ∃ e, c.items.lookup key = some e ∧
        now - e.timestamp ≤ cacheExpiration) ∧
    (∀ e, c.items.lookup key = some e →
      now - e.timestamp > cacheExpiration →
      (Cache.Get c key now).2.1 = false ∧
      ((Cache.Get c key now).2.2).items.lookup key = none) := by
  constructor
  · constructor
    · intro hfound
      cases hl : c.items.lookup key with
      | none =>
        rw [cacheGet_none c key now hl] at hfound
        simp at hfound
      | some e =>
        by_cases hexp : now - e.timestamp > cacheExpiration
        · rw [cacheGet_expired c key now e hl hexp] at hfound
          simp at hfound
        · exact ⟨e, rfl, not_lt.mp hexp⟩
    · rintro ⟨e, hl, hle⟩
      rw [cacheGet_fresh c key now e hl (not_lt.mpr hle)]
  · intro e hl hexp
    rw [cacheGet_expired c key now e hl hexp]
    exact ⟨rfl, lookup_mapDelete c.items key⟩

/-- Witness entry for `cacheGet_ttl_boundary`. -/
def c6wEntry : cacheEntry := ⟨[], 100, "v1", ⟨"", []⟩, 0⟩

/-- Witness cache for `cacheGet_ttl_boundary`. -/
def c6wCache : Cache := ⟨[("w6", c6wEntry)], 1, 0, 0, 0⟩

theorem cacheGet_ttl_boundary_witness :
    (Cache.Get c6wCache "w6" 200).2.1 = true :=
  (cacheGet_ttl_boundary c6wCache "w6" 200).1.mpr
    ⟨c6wEntry, rfl, by decide⟩

/-- Entry for the C9 counterexample, created at time 0. -/
def c9Entry : cacheEntry := ⟨[], 0, "v1", ⟨"", []⟩, 0⟩

/-- Cache for the C9 counterexample, with hit and miss counters
already at 3 and 4. -/
def c9Cache : Cache := ⟨[("policyB", c9Entry)], 1, 3, 4, 0⟩

/-- C9 counterexample: the claim says every `Cache.Get` increments
exactly one of the hit or miss counters, with expiry counting as a
miss. On an expired entry (age 70s > 60s TTL) the code increments the
*evicted* counter instead: hits stay 3 and misses stay 4 — neither is
incremented. -/
theorem cacheGet_expired_skips_hit_and_miss :
    (Cache.Get c9Cache "policyB" 70000000000).2.2.hits = 3 ∧
    (Cache.Get c9Cache "policyB" 70000000000).2.2.misses = 4 ∧
    (Cache.Get c9Cache "policyB" 70000000000).2.2.evicted = 1 ∧
    (Cache.Get c9Cache "policyB" 70000000000).2.1 = false := by
  exact ⟨rfl, rfl, rfl, rfl⟩

/-- C9 (amended): every `Cache.Get` increments exactly one of the
hit, miss, or evicted counters: hits on a served entry (whose
`lastAccess` is refreshed to the call time, both in the returned entry
and in the stored one), misses when the key is absent, and evicted —
not misses — when the entry is present but expired. The operation is
total: absence and expiry are signalled only through the boolean
result. -/
theorem cacheGet_counter_discipline (c : Cache) (key : String) (now : Int) :
    (c.items.lookup key = none →
      (Cache.Get c key now).2.1 = false ∧
      (Cache.Get c key now).2.2.misses = c.misses + 1 ∧
      (Cache.Get c key now).2.2.hits = c.hits ∧
      (Cache.Get c key now).2.2.evicted = c.evicted) ∧
    (∀ e, c.items.lookup key = some e →
      now - e.timestamp > cacheExpiration →
      (Cache.Get c key now).2.1 = false ∧
      (Cache.Get c key now).2.2.evicted = c.evicted + 1 ∧
      (Cache.Get c key now).2.2.hits = c.hits ∧
      (Cache.Get c key now).2.2.misses = c.misses) ∧
    (∀ e, c.items.lookup key = some e →
      ¬ (now - e.timestamp > cacheExpiration) →
      (Cache.Get c key now).2.1 = true ∧
      (Cache.Get c key now).2.2.hits = c.hits + 1 ∧
      (Cache.Get c key now).2.2.misses = c.misses ∧
      (Cache.Get c key now).2.2.evicted = c.evicted ∧
      (Cache.Get c key now).1 = { e with lastAccess := now } ∧
      (Cache.Get c key now).2.2.items.lookup key =
        some { e with lastAccess := now }) := by
  refine ⟨fun h => ?_, fun e h hexp => ?_, fun e h hfresh => ?_⟩
  · rw [cacheGet_none c key now h]
    exact ⟨rfl, rfl, rfl, rfl⟩
  · rw [cacheGet_expired c key now e h hexp]
    exact ⟨rfl, rfl, rfl, rfl⟩
  · rw [cacheGet_fresh c key now e h hfresh]
    exact ⟨rfl, rfl, rfl, rfl, rfl,
      lookup_mapInsert_self c.items key { e with lastAccess := now }⟩

theorem cacheGet_counter_discipline_witness :
    (Cache.Get Cache.empty "absent" 0).2.1 = false ∧
    (Cache.Get Cache.empty "absent" 0).2.2.misses = Cache.empty.misses + 1 ∧
    (Cache.Get Cache.empty "absent" 0).2.2.hits = Cache.empty.hits ∧
    (Cache.Get Cache.empty "absent" 0).2.2.evicted = Cache.empty.evicted :=
  (cacheGet_counter_discipline Cache.empty "absent" 0).1 rfl

lemma lookup_cacheSet_self (c : Cache) (key : String) (e : cacheEntry)
    (now : Int) :
    (Cache.Set c key e now).items.lookup key
      = some { e with lastAccess := now } := by
  unfold Cache.Set
  by_cases h : c.size ≥ maxCacheSize ∧ (mapIndex c.items key).timestamp = 0
  · rw [if_pos h]
    dsimp only
    split <;> exact lookup_mapInsert_self _ key _
  · rw [if_neg h]
    dsimp only
    split <;> exact lookup_mapInsert_self _ key _

/-- Permissions held by the cached entry of the C3 counterexample. -/
def c3Perms : List PermissionDisplay :=
  [⟨"s3:GetObject", "arn:aws:s3:::b/k", "Allow", false, false, false⟩]

/-- C3 cached entry: created at time 0, version `v1`. -/
def c3Entry : cacheEntry := ⟨c3Perms, 0, "v1", ⟨"", []⟩, 0⟩

/-- C3 cache with the entry stored for key "arnA". -/
def c3Cache : Cache := ⟨[("arnA", c3Entry)], 1, 0, 0, 0⟩

/-- C3 remote API: live version `v1` (matching the cached entry), the
metadata call succeeds; no other remote behaviour is needed. -/
def c3API : RemoteAPI :=
  ⟨"v1", .ok (), fun _ => .error "unused", (.error "unused", 0)⟩

/-- C3 counterexample: the claim says the cache-hit path performs zero
remote calls because the cache is consulted before any remote call.
On a present, unexpired, version-matching entry the code still issues
one remote call — `GetPolicy` runs *before* the cache is consulted —
so the call count of the hit path is 1, not 0. -/
theorem cacheHit_still_makes_remote_call :
    (GetPolicyPermissions c3API c3Cache "arnA" 10).1 = .ok c3Perms ∧
    (GetPolicyPermissions c3API c3Cache "arnA" 10).2.2 = 1 ∧
    (GetPolicyPermissions c3API c3Cache "arnA" 10).2.2 ≠ 0 := by
  exact ⟨rfl, rfl, by decide⟩

/-- C3 (amended): on a cache entry that is present, unexpired and
carries the live version, `GetPolicyPermissions` returns the cached
permissions without fetching the version document — but the metadata
call (`GetPolicy`) is issued before the cache is consulted, so the
cache-hit path performs exactly one remote call rather than zero. -/
theorem getPolicyPermissions_hit_path (api : RemoteAPI) (c : Cache)
    (arn : String) (now : Int) (e : cacheEntry)
    (hok : api.getPolicy = .ok ())
    (hlook : c.items.lookup arn = some e)
    (hfresh : ¬ now - e.timestamp > cacheExpiration)
    (hver : e.versionId = api.liveVersion) :
    (GetPolicyPermissions api c arn now).1 = .ok e.permissions ∧
    (GetPolicyPermissions api c arn now).2.2 = 1 := by
  unfold GetPolicyPermissions
  rw [hok, cacheGet_fresh c arn now e hlook hfresh]
  have hbeq : ({ e with lastAccess := now }.versionId == api.liveVersion)
      = true := by
    simp [hver]
  dsimp only
  rw [hbeq]
  exact ⟨rfl, rfl⟩

theorem getPolicyPermissions_hit_path_witness :
    (GetPolicyPermissions c3API c3Cache "arnA" 10).1 = .ok c3Entry.permissions ∧
    (GetPolicyPermissions c3API c3Cache "arnA" 10).2.2 = 1 :=
  getPolicyPermissions_hit_path c3API c3Cache "arnA" 10 c3Entry
    rfl rfl (by decide) rfl

/-- Permissions held by the stale cached entry of the C4
counterexample. -/
def c4Perms : List PermissionDisplay := [⟨"s3:*", "*", "Allow", true, true, false⟩]

/-- C4 cached entry: created at time 0, version `v1` — stale relative
to the live version `v2`. -/
def c4Entry : cacheEntry := ⟨c4Perms, 0, "v1", ⟨"", []⟩, 0⟩

/-- C4 cache with the stale entry stored for key "arnB". -/
def c4Cache : Cache := ⟨[("arnB", c4Entry)], 1, 0, 0, 0⟩

/-- C4 remote API: the policy's live version is `v2`, but the
metadata call fails transiently. -/
def c4API : RemoteAPI :=
  ⟨"v2", .error "connection reset", fun _ => .error "unused", (.error "unused", 0)⟩

/-- C4 counterexample: the claim says a cached entry whose versionId
differs from the live version is never served. When the metadata call
fails, the code serves any unexpired cached entry as a fallback — here
the `v1` entry is served although the live version is `v2`. -/
theorem stale_version_served_on_metadata_failure :
    c4Entry.versionId ≠ c4API.liveVersion ∧
    (10 - c4Entry.timestamp ≤ cacheExpiration) ∧
    (GetPolicyPermissions c4API c4Cache "arnB" 10).1 = .ok c4Perms := by
  exact ⟨by decide, by decide, rfl⟩

/-- C4 (amended): when the metadata call succeeds, a present unexpired
entry whose versionId differs from the live version is not served: the
version document is fetched fresh (two remote calls in total); on a
successful fetch the formatted document is returned and the cache is
overwritten with an entry carrying the live version, and a failed
fetch surfaces as an error. Only when the metadata call fails is a
cached entry served regardless of version. -/
theorem getPolicyPermissions_version_mismatch (api : RemoteAPI) (c : Cache)
    (arn : String) (now : Int) (e : cacheEntry)
    (hok : api.getPolicy = .ok ())
    (hlook : c.items.lookup arn = some e)
    (hfresh : ¬ now - e.timestamp > cacheExpiration)
    (hver : e.versionId ≠ api.liveVersion) :
    (GetPolicyPermissions api c arn now).2.2 = 2 ∧
    (∀ doc, api.getVersionDoc api.liveVersion = .ok doc →
      (GetPolicyPermissions api c arn now).1 =
        .ok (formatPermissions doc.Statement) ∧
      ∃ e2, (GetPolicyPermissions api c arn now).2.1.items.lookup arn = some e2 ∧
        e2.versionId = api.liveVersion ∧
        e2.permissions = formatPermissions doc.Statement) ∧
    (∀ msg, api.getVersionDoc api.liveVersion = .error msg →
      (GetPolicyPermissions api c arn now).1 =
        .error ("failed to get policy version: " ++ msg)) := by
  unfold GetPolicyPermissions
  rw [hok, cacheGet_fresh c arn now e hlook hfresh]
  have hbeq : ({ e with lastAccess := now }.versionId == api.liveVersion)
      = false := beq_false_of_ne hver
  dsimp only
  rw [hbeq]
  refine ⟨?_, ?_, ?_⟩
  · cases hd : api.getVersionDoc api.liveVersion with
    | ok doc => simp [hd]
    | error msg => simp [hd]
  · intro doc hd
    rw [hd]
    refine ⟨rfl, { permissions := formatPermissions doc.Statement
                   timestamp := now
                   versionId := api.liveVersion
                   document := doc
                   lastAccess := now }, ?_, rfl, rfl⟩
    exact lookup_cacheSet_self _ arn _ now
  · intro msg hd
    rw [hd]
    rfl

/-- Witness document for `getPolicyPermissions_version_mismatch`. -/
def c4wDoc : PolicyDocument :=
  ⟨"2012-10-17", [⟨"Allow", .str "s3:GetObject", .str "arn:aws:s3:::b/k2", []⟩]⟩

/-- Witness remote API: live version `v2`, metadata call succeeds,
version document available for `v2`. -/
def c4wAPI : RemoteAPI :=
  ⟨"v2", .ok (),
    fun v => if v = "v2" then .ok c4wDoc else .error "no such version",
    (.error "unused", 0)⟩

/-- Witness cached entry at stale version `v1`. -/
def c4wEntry : cacheEntry := ⟨[], 0, "v1", ⟨"", []⟩, 0⟩

/-- Witness cache for `getPolicyPermissions_version_mismatch`. -/
def c4wCache : Cache := ⟨[("arnW", c4wEntry)], 1, 0, 0, 0⟩

theorem getPolicyPermissions_version_mismatch_witness :
    (GetPolicyPermissions c4wAPI c4wCache "arnW" 10).2.2 = 2 ∧
    (GetPolicyPermissions c4wAPI c4wCache "arnW" 10).1 =
      .ok (formatPermissions c4wDoc.Statement) :=
  ⟨(getPolicyPermissions_version_mismatch c4wAPI c4wCache "arnW" 10 c4wEntry
      rfl rfl (by decide) (by decide)).1,
   ((getPolicyPermissions_version_mismatch c4wAPI c4wCache "arnW" 10 c4wEntry
      rfl rfl (by decide) (by decide)).2.1 c4wDoc rfl).1⟩

lemma errs_ne_nil_of_no_success (outcomes : List (Except String Policy))
    (hno : outcomes.filterMap okPolicy = []) (hne : outcomes ≠ []) :
    outcomes.filterMap errMsg ≠ [] := by
  cases outcomes with
  | nil => exact absurd rfl hne
  | cons o rest =>
    cases o with
    | ok p => simp [List.filterMap_cons, okPolicy] at hno
    | error e => simp [List.filterMap_cons, errMsg]

/-- C2: with the list call succeeding, a non-empty attached-policy
list, an empty cache pre-pass, and every dispatched outcome delivered
before the collection timeout: when at least one policy resolution
succeeded, `GetRolePolicies` returns exactly the successfully resolved
policies (in delivery order) and no error; when every dispatched
resolution failed, it returns an error and no result. -/
theorem getRolePolicies_partial_results (attached : List AttachedPolicy)
    (outcomes : List (Except String Policy)) (hatt : attached ≠ []) :
    (outcomes.filterMap okPolicy ≠ [] →
      GetRolePolicies (.ok attached) [] outcomes =
        .ok (outcomes.filterMap okPolicy)) ∧
    (outcomes.filterMap okPolicy = [] → outcomes ≠ [] →
      ∃ msg, GetRolePolicies (.ok attached) [] outcomes = .error msg) := by
  have hemp : attached.isEmpty = false := by
    cases attached with
    | nil => exact absurd rfl hatt
    | cons _ _ => rfl
  constructor
  · intro hsucc
    simp only [GetRolePolicies, collectPolicies, hemp, Bool.false_eq_true,
      if_false, List.nil_append]
    cases herrs : outcomes.filterMap errMsg with
    | nil => simp
    | cons e es =>
      have hlen : ¬ (outcomes.filterMap okPolicy).length = 0 := by
        simpa [List.length_eq_zero] using hsucc
      dsimp only
      rw [if_neg hlen]
  · intro hno hne
    have herrs := errs_ne_nil_of_no_success outcomes hno hne
    simp only [GetRolePolicies, collectPolicies, hemp, Bool.false_eq_true,
      if_false, List.nil_append]
    cases herrs2 : outcomes.filterMap errMsg with
    | nil => exact absurd herrs2 herrs
    | cons e es =>
      refine ⟨"failed to get any policies: " ++ e, ?_⟩
      have hlen : (outcomes.filterMap okPolicy).length = 0 := by
        simp [hno]
      dsimp only
      rw [if_pos hlen]

/-- Witness policies for `getRolePolicies_partial_results`. -/
def c2wP1 : Policy := ⟨"pol1", "arn1", []⟩

/-- Second witness policy. -/
def c2wP2 : Policy := ⟨"pol2", "arn2", []⟩

/-- Third witness policy. -/
def c2wP3 : Policy := ⟨"pol3", "arn3", []⟩

/-- Five dispatched outcomes: three succeed, two fail transiently. -/
def c2wOut5 : List (Except String Policy) :=
  [.ok c2wP1, .error "throttled", .ok c2wP2, .error "timeout", .ok c2wP3]

/-- Three dispatched outcomes that all fail. -/
def c2wOut3 : List (Except String Policy) :=
  [.error "throttled", .error "timeout", .error "refused"]

theorem getRolePolicies_partial_results_witness :
    GetRolePolicies (.ok [⟨"n", "a"⟩]) [] c2wOut5 =
      .ok (c2wOut5.filterMap okPolicy) ∧
    ∃ msg, GetRolePolicies (.ok [⟨"n", "a"⟩]) [] c2wOut3 = .error msg :=
  ⟨(getRolePolicies_partial_results [⟨"n", "a"⟩] c2wOut5 (by decide)).1
      (by decide),
   (getRolePolicies_partial_results [⟨"n", "a"⟩] c2wOut3 (by decide)).2
      (by decide) (by simp [c2wOut3])⟩

/-- C7: the retry loop around `ListAttachedRolePolicies` always runs
all `maxRetries = 3` attempts and returns the *last* attempt's
outcome, sleeping the exponentially increasing backoffs 200ms and
400ms before attempts 2 and 3 — regardless of whether an earlier
attempt succeeded. Go's `break` after `err == nil` exits only the
enclosing `select`, never the `for` loop, so a success on attempt 1
is overwritten: with outcomes (ok, error, error) the whole call
surfaces the attempt-3 error. -/
theorem listRetry_runs_all_attempts
    (oracle : Nat → Except String (List AttachedPolicy)) :
    listPoliciesWithRetry oracle = (oracle 2, 3, [200000000, 400000000]) ∧
    listPoliciesWithRetry
        (fun i => if i = 0 then .ok [⟨"pol", "arn"⟩] else .error "transient") =
      (.error "transient", 3, [200000000, 400000000]) :=
  ⟨rfl, rfl⟩

theorem listRetry_runs_all_attempts_witness :
    listPoliciesWithRetry (fun _ => .error "down") =
      (.error "down", 3, [200000000, 400000000]) :=
  (listRetry_runs_all_attempts (fun _ => Except.error "down")).1

lemma set_fresh_nonzero (c : Cache) (key : String) (e : cacheEntry) (now : Int)
    (hsize : c.size < maxCacheSize)
    (hlook : c.items.lookup key = none)
    (hts : e.timestamp ≠ 0) :
    Cache.Set c key e now =
      { c with items := c.items ++ [(key, { e with lastAccess := now })] } := by
  unfold Cache.Set
  have hguard : ¬ (c.size ≥ maxCacheSize ∧ (mapIndex c.items key).timestamp = 0) := by
    rintro ⟨h1, _⟩
    exact absurd h1 (not_le.mpr hsize)
  rw [if_neg hguard]
  dsimp only
  have hins : mapInsert c.items key { e with lastAccess := now } =
      c.items ++ [(key, { e with lastAccess := now })] := by
    unfold mapInsert
    rw [hlook]
    rfl
  rw [hins]
  have hidx : mapIndex (c.items ++ [(key, { e with lastAccess := now })]) key
      = { e with lastAccess := now } := by
    unfold mapIndex
    rw [lookup_append_self c.items key _ hlook]
    rfl
  rw [if_neg (by rw [hidx]; exact hts)]

/-- A sequence of `Cache.Set` calls (as repeated writebacks perform),
all at clock `now`, in list order. -/
def setAll (c : Cache) (entries : List (String × cacheEntry)) (now : Int) : Cache :=
  entries.foldl (fun acc kv => Cache.Set acc kv.1 kv.2 now) c

lemma setAll_fresh (entries : List (String × cacheEntry)) :
    ∀ (c : Cache) (now : Int), c.size = 0 →
      (∀ kv ∈ entries, kv.2.timestamp ≠ 0) →
      (entries.map Prod.fst).Nodup →
      (∀ kv ∈ entries, c.items.lookup kv.1 = none) →
      (setAll c entries now).items.length = c.items.length + entries.length ∧
      (setAll c entries now).size = 0 ∧
      (setAll c entries now).evicted = c.evicted := by
  induction entries with
  | nil =>
    intro c now h0 _ _ _
    simp [setAll, h0]
  | cons kv rest ih =>
    intro c now h0 hts hnd hlk
    have hsize : c.size < maxCacheSize := by
      rw [h0]; decide
    have hstep := set_fresh_nonzero c kv.1 kv.2 now hsize
      (hlk kv (by simp)) (hts kv (by simp))
    have hfold : setAll c (kv :: rest) now =
        setAll { c with items := c.items ++ [(kv.1, { kv.2 with lastAccess := now })] }
          rest now := by
      simp only [setAll, List.foldl_cons]
      rw [hstep]
    rw [hfold]
    have hhead : kv.1 ∉ rest.map Prod.fst := by
      have := hnd
      simp only [List.map_cons, List.nodup_cons] at this
      exact this.1
    have hrest := ih { c with items := c.items ++ [(kv.1, { kv.2 with lastAccess := now })] }
      now h0
      (fun kv' h => hts kv' (List.mem_cons_of_mem kv h))
      (by
        have := hnd
        simp only [List.map_cons, List.nodup_cons] at this
        exact this.2)
      (by
        intro kv' h
        have hne : kv'.1 ≠ kv.1 := by
          intro heq
          exact hhead (heq ▸ List.mem_map_of_mem Prod.fst h)
        exact lookup_append_singleton_ne c.items kv.1 kv'.1 _ hne
          (hlk kv' (List.mem_cons_of_mem kv h)))
    refine ⟨?_, hrest.2.1, hrest.2.2⟩
    rw [hrest.1]
    dsimp only
    simp only [List.length_append, List.length_cons, List.length_nil]
    omega

/-- C5: the capacity invariant fails. Every real writeback stores an
entry whose creation timestamp is nonzero (`timestamp: time.Now()`),
but `Cache.Set` increments `size` only when the *just-stored* entry's
timestamp is zero — so for any sequence of inserts of distinct new
keys with nonzero timestamps, the `size` counter stays 0, the
eviction guard `size >= maxCacheSize` never fires, no entry is ever
evicted, and the item count equals the number of inserts: more than
`maxCacheSize` inserts leave the cache holding more than
`maxCacheSize` entries. -/
theorem cacheSet_capacity_never_enforced
    (entries : List (String × cacheEntry)) (now : Int)
    (hts : ∀ kv ∈ entries, kv.2.timestamp ≠ 0)
    (hnd : (entries.map Prod.fst).Nodup) :
    (setAll Cache.empty entries now).items.length = entries.length ∧
    (setAll Cache.empty entries now).size = 0 ∧
    (setAll Cache.empty entries now).evicted = 0 ∧
    ((entries.length : Int) > maxCacheSize →
      ((setAll Cache.empty entries now).items.length : Int) > maxCacheSize) := by
  have h := setAll_fresh entries Cache.empty now rfl hts hnd
    (fun kv _ => rfl)
  have hlen : (setAll Cache.empty entries now).items.length = entries.length := by
    have := h.1
    simpa [Cache.empty] using this
  refine ⟨hlen, h.2.1, h.2.2, ?_⟩
  intro hover
  rw [hlen]
  exact hover

/-- Witness entries for `cacheSet_capacity_never_enforced`: two fresh
keys with nonzero creation timestamps. -/
def c5wEntries : List (String × cacheEntry) :=
  [("arnX", ⟨[], 5, "v1", ⟨"", []⟩, 0⟩), ("arnY", ⟨[], 7, "v1", ⟨"", []⟩, 0⟩)]

theorem cacheSet_capacity_never_enforced_witness :
    (setAll Cache.empty c5wEntries 10).items.length = c5wEntries.length ∧
    (setAll Cache.empty c5wEntries 10).size = 0 ∧
    (setAll Cache.empty c5wEntries 10).evicted = 0 :=
  ⟨(cacheSet_capacity_never_enforced c5wEntries 10 (by decide) (by decide)).1,
   (cacheSet_capacity_never_enforced c5wEntries 10 (by decide) (by decide)).2.1,
   (cacheSet_capacity_never_enforced c5wEntries 10 (by decide) (by decide)).2.2.1⟩

/-- The Allow statement of the spec's mixed document for C1. -/
def c1AllowStmt : Statement :=
  ⟨"Allow", .str "s3:GetObject", .str "arn:aws:s3:::my-bucket/key", []⟩

/-- The Deny statement of the spec's mixed document for C1. -/
def c1DenyStmt : Statement := ⟨"Deny", .str "s3:DeleteBucket", .str "*", []⟩

/-- C1 counterexample: resolving the spec's mixed document through the
resolution path (`formatPermissions`, as called by
`GetPolicyPermissions`) yields TWO permission records, not one: the
Deny statement also produces a record, tagged Effect = "Deny". -/
theorem formatPermissions_emits_deny_records :
    (formatPermissions [c1AllowStmt, c1DenyStmt]).length = 2 ∧
    (formatPermissions [c1AllowStmt, c1DenyStmt]).map PermissionDisplay.Effect
      = ["Allow", "Deny"] := by decide

lemma flatMap_display_filter_allow (stmts : List StatementInfo) :
    stmts.flatMap displayOfStatement =
      (stmts.filter (fun s => s.Effect == "Allow")).flatMap displayOfStatement := by
  induction stmts with
  | nil => rfl
  | cons s rest ih =>
    by_cases h : s.Effect = "Allow"
    · simp only [List.flatMap_cons, List.filter_cons, h, beq_self_eq_true,
        if_true, ih]
    · have hb : (s.Effect == "Allow") = false := beq_false_of_ne h
      have hd : displayOfStatement s = [] := by
        unfold displayOfStatement
        rw [if_pos h]
      simp only [List.flatMap_cons, List.filter_cons, hb, Bool.false_eq_true,
        if_false, hd, List.nil_append, ih]

/-- C1 (amended): only the analyzer's `processPermissions` restricts
to Allow statements — non-Allow statements contribute no records
there, so filtering the input down to its Allow statements leaves the
output unchanged. The resolution path's `formatPermissions` performs
no such filtering: the spec's mixed Allow/Deny document yields one
record per statement, the Deny-derived record carrying Effect =
"Deny". -/
theorem allow_filtering_only_in_analyzer (stmts : List StatementInfo) :
    processPermissions stmts =
      processPermissions (stmts.filter (fun s => s.Effect == "Allow")) ∧
    formatPermissions [c1AllowStmt, c1DenyStmt] =
      [⟨"s3:GetObject", "arn:aws:s3:::my-bucket/key", "Allow", false, false, false⟩,
       ⟨"s3:DeleteBucket", "*", "Deny", true, false, false⟩] := by
  constructor
  · unfold processPermissions
    rw [flatMap_display_filter_allow]
  · decide

theorem allow_filtering_only_in_analyzer_witness :
    processPermissions [⟨"Allow", ["s3:GetObject"], ["arn:aws:s3:::b"]⟩,
        ⟨"Deny", ["s3:DeleteBucket"], ["*"]⟩] =
      processPermissions
        ([⟨"Allow", ["s3:GetObject"], ["arn:aws:s3:::b"]⟩,
          ⟨"Deny", ["s3:DeleteBucket"], ["*"]⟩].filter
            (fun s => s.Effect == "Allow")) :=
  (allow_filtering_only_in_analyzer
    [⟨"Allow", ["s3:GetObject"], ["arn:aws:s3:::b"]⟩,
     ⟨"Deny", ["s3:DeleteBucket"], ["*"]⟩]).1

/-- The C8 statement whose action is a specific (wildcard-free)
identity operation. -/
def c8Stmt : Statement :=
  ⟨"Allow", .str "iam:GetUser", .str "arn:aws:iam::123456789012:user/bob", []⟩

/-- C8 counterexample: the claim makes isHighRisk hold exactly for the
fixed set of sensitive-service *wildcard* patterns. The record
produced for `iam:GetUser` — an action containing no wildcard at all,
hence matching no wildcard pattern — is nevertheless flagged
high-risk, because the code tests service name *prefixes*. -/
theorem highRisk_without_wildcard :
    (formatPermissions [c8Stmt]).map PermissionDisplay.IsHighRisk = [true] ∧
    containsStar "iam:GetUser" = false := by decide

lemma isHighRisk_of_mem_formatPermissions (stmts : List Statement)
    (p : PermissionDisplay) (hp : p ∈ formatPermissions stmts) :
    p.IsHighRisk = isHighRiskService p.Action := by
  unfold formatPermissions at hp
  simp only [List.mem_flatMap, List.mem_map] at hp
  obtain ⟨stmt, _, a, _, r, _, hrec⟩ := hp
  subst hrec
  rfl

/-- C8 (amended): a produced record's isHighRisk flag is true iff its
action starts with one of the seven sensitive-service prefixes
(`iam:`, `kms:`, `secretsmanager:`, `lambda:`, `ec2:`, `rds:`,
`dynamodb:`) or ends with `:*` (full access to *any* service) — not
only for sensitive-service wildcard patterns. The spec's two examples
hold: `s3:*` on `*` yields isBroad = isHighRisk = true, and
`s3:GetObject` on a specific ARN yields both false. -/
theorem isHighRisk_prefix_or_full_service (stmts : List Statement)
    (p : PermissionDisplay) (hp : p ∈ formatPermissions stmts) :
    (p.IsHighRisk = true ↔
      (∃ svc ∈ highRiskServices, strHasPrefix p.Action svc = true) ∨
        strHasSuffix p.Action ":*" = true) ∧
    formatPermissions [⟨"Allow", .str "s3:*", .str "*", []⟩] =
      [⟨"s3:*", "*", "Allow", true, true, false⟩] ∧
    formatPermissions
        [⟨"Allow", .str "s3:GetObject", .str "arn:aws:s3:::prod-bucket/data.txt", []⟩] =
      [⟨"s3:GetObject", "arn:aws:s3:::prod-bucket/data.txt", "Allow",
        false, false, false⟩] := by
  refine ⟨?_, by decide, by decide⟩
  rw [isHighRisk_of_mem_formatPermissions stmts p hp]
  simp [isHighRiskService, List.any_eq_true, Bool.or_eq_true]

/-- Witness record for `isHighRisk_prefix_or_full_service`. -/
def c8wRecord : PermissionDisplay := ⟨"s3:*", "*", "Allow", true, true, false⟩

theorem isHighRisk_prefix_or_full_service_witness :
    c8wRecord.IsHighRisk = true ↔
      (∃ svc ∈ highRiskServices, strHasPrefix c8wRecord.Action svc = true) ∨
        strHasSuffix c8wRecord.Action ":*" = true :=
  (isHighRisk_prefix_or_full_service [⟨"Allow", .str "s3:*", .str "*", []⟩]
    c8wRecord (by decide)).1

lemma permLess_false_char (a b : PermissionDisplay) :
    permLess a b = false ↔
      (a.IsHighRisk = false ∧ b.IsHighRisk = true) ∨
      (a.IsHighRisk = b.IsHighRisk ∧ a.IsBroad = false ∧ b.IsBroad = true) ∨
      (a.IsHighRisk = b.IsHighRisk ∧ a.IsBroad = b.IsBroad ∧
        ¬ a.Action < b.Action) := by
  unfold permLess
  cases ha : a.IsHighRisk <;> cases hb : b.IsHighRisk <;>
    cases hab : a.IsBroad <;> cases hbb : b.IsBroad <;>
      simp [decide_eq_false_iff_not]

instance : IsTrans PermissionDisplay permLE := by
  constructor
  intro a b c hab hbc
  unfold permLE at *
  rw [permLess_false_char] at hab hbc ⊢
  rcases hab with ⟨h1, h2⟩ | ⟨h1, h2, h3⟩ | ⟨h1, h2, h3⟩ <;>
    rcases hbc with ⟨g1, g2⟩ | ⟨g1, g2, g3⟩ | ⟨g1, g2, g3⟩
  · exact (Bool.false_ne_true (h1.symm.trans g2)).elim
  · exact Or.inl ⟨g1.trans h1, h2⟩
  · exact Or.inl ⟨g1.trans h1, h2⟩
  · exact Or.inl ⟨g1, h1 ▸ g2⟩
  · exact (Bool.false_ne_true (h2.symm.trans g3)).elim
  · exact Or.inr (Or.inl ⟨g1.trans h1, g2.trans h2, h3⟩)
  · exact Or.inl ⟨g1, h1 ▸ g2⟩
  · exact Or.inr (Or.inl ⟨g1.trans h1, g2, h2 ▸ g3⟩)
  · exact Or.inr (Or.inr ⟨g1.trans h1, g2.trans h2,
      not_lt.mpr (le_trans (not_lt.mp h3) (not_lt.mp g3))⟩)

instance : IsTotal PermissionDisplay permLE := by
  constructor
  intro a b
  unfold permLE
  rw [permLess_false_char, permLess_false_char]
  by_cases hH : a.IsHighRisk = b.IsHighRisk
  · by_cases hB : a.IsBroad = b.IsBroad
    · rcases le_total a.Action b.Action with h | h
      · exact Or.inl (Or.inr (Or.inr ⟨hH.symm, hB.symm, not_lt.mpr h⟩))
      · exact Or.inr (Or.inr (Or.inr ⟨hH, hB, not_lt.mpr h⟩))
    · cases hab : a.IsBroad with
      | false =>
        have hbb : b.IsBroad = true := by
          cases hbb : b.IsBroad
          · exact absurd (hab.trans hbb.symm) hB
          · rfl
        exact Or.inr (Or.inr (Or.inl ⟨hH, rfl, hbb⟩))
      | true =>
        have hbb : b.IsBroad = false := by
          cases hbb : b.IsBroad
          · rfl
          · exact absurd (hab.trans hbb.symm) hB
        exact Or.inl (Or.inr (Or.inl ⟨hH.symm, hbb, rfl⟩))
  · cases hah : a.IsHighRisk with
    | false =>
      have hbh : b.IsHighRisk = true := by
        cases hbh : b.IsHighRisk
        · exact absurd (hah.trans hbh.symm) hH
        · rfl
      exact Or.inr (Or.inl ⟨rfl, hbh⟩)
    | true =>
      have hbh : b.IsHighRisk = false := by
        cases hbh : b.IsHighRisk
        · rfl
        · exact absurd (hah.trans hbh.symm) hH
      exact Or.inl (Or.inl ⟨hbh, rfl⟩)

/-- The display order asserted by C10, stated from the claim's
wording: every high-risk record precedes every non-high-risk one;
among equal IsHighRisk, broad records precede non-broad ones; among
equal flags, actions ascend lexicographically. -/
def specC10Order (a b : PermissionDisplay) : Prop :=
  (b.IsHighRisk = true → a.IsHighRisk = true) ∧
  (a.IsHighRisk = b.IsHighRisk → b.IsBroad = true → a.IsBroad = true) ∧
  (a.IsHighRisk = b.IsHighRisk → a.IsBroad = b.IsBroad → a.Action ≤ b.Action)

lemma permLE_implies_specC10 (a b : PermissionDisplay) (h : permLE a b) :
    specC10Order a b := by
  unfold permLE at h
  rw [permLess_false_char] at h
  rcases h with ⟨h1, h2⟩ | ⟨h1, h2, h3⟩ | ⟨h1, h2, h3⟩
  · exact ⟨fun _ => h2,
      fun hH => (Bool.false_ne_true (((h2.symm.trans hH).trans h1).symm)).elim,
      fun hH => (Bool.false_ne_true (((h2.symm.trans hH).trans h1).symm)).elim⟩
  · exact ⟨fun hb => h1 ▸ hb, fun _ _ => h3,
      fun _ hB => (Bool.false_ne_true (((h3.symm.trans hB).trans h2).symm)).elim⟩
  · exact ⟨fun hb => h1 ▸ hb, fun _ hb => h2 ▸ hb,
      fun _ _ => not_lt.mp h3⟩

/-- C10: for every input, `processPermissions` output is sorted in the
claimed order: high-risk records first, then (within equal IsHighRisk)
broad records first, then (within equal flags) ascending Action; the
order holds for every pair of positions in the output. -/
theorem processPermissions_output_sorted (stmts : List StatementInfo) :
    (processPermissions stmts).Pairwise specC10Order := by
  unfold processPermissions
  exact List.Pairwise.imp (fun h => permLE_implies_specC10 _ _ h)
    (List.sorted_insertionSort permLE (stmts.flatMap displayOfStatement))

theorem processPermissions_output_sorted_witness :
    (processPermissions
      [⟨"Allow", ["s3:GetObject", "iam:*", "s3:*"], ["*"]⟩]).Pairwise
        specC10Order :=
  processPermissions_output_sorted
    [⟨"Allow", ["s3:GetObject", "iam:*", "s3:*"], ["*"]⟩]
